import Mathlib

/-!
Shallow embedding of the NES emulator CPU core (src/cpu.rs and the older
single-file implementation src/lib.rs), with machine integers modelled as
`Nat` carrying explicit `% 2^w` truncation exactly where the Rust source
casts or wraps.  Fallible operations (array indexing that can panic,
`todo!()`, the `expect` on opcode lookup) are modelled with `Option` /
`Except`.
-/

/-- Size of the CPU memory array as declared in the source:
`memory: [u8; 0xFFFF]` — 65535 bytes, so valid indices are `0 ..= 0xFFFE`. -/
def MEM_SIZE : Nat := 0xFFFF

/-- The processor state of src/cpu.rs (`struct CPU`).  Registers hold byte
values, `program_counter` a 16-bit value; `memory` is modelled as a total
function, with all accesses going through the bounds-checked
`CPU.mem_read` / `CPU.mem_write` (Rust array indexing panics out of
bounds, modelled as `none`). -/
structure CPU where
  register_a : Nat
  register_x : Nat
  register_y : Nat
  status : Nat
  program_counter : Nat
  memory : Nat → Nat

/-- Rust `CPU::new()`: all registers zero, memory zero-filled. -/
def CPU.new : CPU :=
  { register_a := 0, register_x := 0, register_y := 0, status := 0,
    program_counter := 0, memory := fun _ => 0 }

/-- Rust `Mem::mem_read` for CPU: `self.memory[addr as usize]`; indexing out of
the 65535-element array panics, modelled as `none`. -/
def CPU.mem_read (s : CPU) (addr : Nat) : Option Nat :=
  if addr < MEM_SIZE then some (s.memory addr) else none

/-- Rust `Mem::mem_write` for CPU: `self.memory[addr as usize] = data`. -/
def CPU.mem_write (s : CPU) (addr data : Nat) : Option CPU :=
  if addr < MEM_SIZE then
    some { s with memory := fun i => if i = addr then data else s.memory i }
  else
    none

/-- Rust `Mem::mem_read_u16`: reads the high byte at `addr + 1`, the low byte at
`addr`, and combines them as `(high <<< 8) ||| low` (little-endian).  The
source reads `addr + 1` first. -/
def CPU.mem_read_u16 (s : CPU) (addr : Nat) : Option Nat := do
  let high ← s.mem_read (addr + 1)
  let low ← s.mem_read addr
  return (high <<< 8) ||| low

/-- Rust `Mem::mem_write_u16`: `high = (data >> 8) as u8`, `low = (data & 0xFF)
as u8`, writes `low` at `addr` and then `high` at `addr + 1`. -/
def CPU.mem_write_u16 (s : CPU) (addr data : Nat) : Option CPU := do
  let high := (data >>> 8) % 256
  let low := data &&& 0xFF
  let s1 ← s.mem_write addr low
  s1.mem_write (addr + 1) high

/-- A word address is valid when both of its bytes lie inside the
65535-byte memory array. -/
def validWordAddr (addr : Nat) : Prop := addr + 1 < MEM_SIZE

instance : DecidablePred validWordAddr := fun _ => by
  unfold validWordAddr; infer_instance

/-- The `enum AddressingMode` of src/cpu.rs. -/
inductive AddressingMode
  | Immediate
  | ZeroPage
  | ZeroPage_X
  | ZeroPage_Y
  | Absolute
  | Absolute_X
  | Absolute_Y
  | Indirect_X
  | Indirect_Y
  | NoneAddressing
deriving DecidableEq, Repr

/-- Rust `CPU::get_operand_address`.  Wrapping additions become explicit `% 256`
(u8 `wrapping_add`) and `% 65536` (u16 `wrapping_add`).  In the
`Indirect_X` arm the source casts the zero-page pointer to `u16` before
`wrapping_add(1)`, so the high-byte address wraps modulo 65536, not 256.
`NoneAddressing` panics and every unlisted mode (`Indirect_Y`) hits
`todo!()`; both are modelled as `none`. -/
def CPU.get_operand_address (s : CPU) (mode : AddressingMode) : Option Nat :=
  match mode with
  | .Immediate => some s.program_counter
  | .ZeroPage => s.mem_read s.program_counter
  | .Absolute => s.mem_read_u16 s.program_counter
  | .ZeroPage_X => do
      let pos ← s.mem_read s.program_counter
      return (pos + s.register_x) % 256
  | .ZeroPage_Y => do
      let pos ← s.mem_read s.program_counter
      return (pos + s.register_y) % 256
  | .Absolute_X => do
      let base ← s.mem_read_u16 s.program_counter
      return (base + s.register_x) % 65536
  | .Absolute_Y => do
      let base ← s.mem_read_u16 s.program_counter
      return (base + s.register_y) % 65536
  | .Indirect_X => do
      let base ← s.mem_read s.program_counter
      let ptr := (base + s.register_x) % 256
      let lo ← s.mem_read ptr
      let hi ← s.mem_read ((ptr + 1) % 65536)
      return (hi <<< 8) ||| lo
  | .Indirect_Y => none
  | .NoneAddressing => none

/-- Rust `CPU::update_zero_and_negative_flags` as a pure function of the current
status byte and the 8-bit result: first the zero-flag conditional, then the
negative-flag conditional, exactly as in the source. -/
def update_zero_and_negative_flags (status result : Nat) : Nat :=
  let status1 := if result = 0 then status ||| 0b10 else status &&& 0b11111101
  if result &&& 0b10000000 ≠ 0 then status1 ||| 0b10000000
  else status1 &&& 0b01111111

/-- Rust `CPU::lda`: read the byte at the effective address into the
accumulator, then update the zero and negative flags from it. -/
def CPU.lda (s : CPU) (mode : AddressingMode) : Option CPU := do
  let addr ← s.get_operand_address mode
  let value ← s.mem_read addr
  let s1 := { s with register_a := value }
  return { s1 with status := update_zero_and_negative_flags s1.status s1.register_a }

/-- Rust `CPU::sta`: write the accumulator to the effective address. -/
def CPU.sta (s : CPU) (mode : AddressingMode) : Option CPU := do
  let addr ← s.get_operand_address mode
  s.mem_write addr s.register_a

/-- Rust `CPU::tax`: copy the accumulator into index X and update flags. -/
def CPU.tax (s : CPU) : CPU :=
  let s1 := { s with register_x := s.register_a }
  { s1 with status := update_zero_and_negative_flags s1.status s1.register_x }

/-- Rust `CPU::inx`: increment index X with 8-bit wraparound (`wrapping_add(1)`)
and update flags. -/
def CPU.inx (s : CPU) : CPU :=
  let s1 := { s with register_x := (s.register_x + 1) % 256 }
  { s1 with status := update_zero_and_negative_flags s1.status s1.register_x }

/-- Modelled from the spec: the opcode table (`main.rs` declares
`pub mod opcodes;` but src/opcodes.rs is not among the repository's source
files).  Spec section 4.3: a static map from one-byte opcode to addressing
mode and total instruction length (1 + operand bytes).  The table's keys
and modes are those `CPU::run` dispatches on: eight load-accumulator
variants, seven store-accumulator variants, transfer 0xAA, increment 0xE8
and break 0x00 (the last three take no operand). -/
def opcodeEntry (code : Nat) : Option (AddressingMode × Nat) :=
  match code with
  | 0x00 => some (.NoneAddressing, 1)
  | 0xA9 => some (.Immediate, 2)
  | 0xA5 => some (.ZeroPage, 2)
  | 0xB5 => some (.ZeroPage_X, 2)
  | 0xAD => some (.Absolute, 3)
  | 0xBD => some (.Absolute_X, 3)
  | 0xB9 => some (.Absolute_Y, 3)
  | 0xA1 => some (.Indirect_X, 2)
  | 0xB1 => some (.Indirect_Y, 2)
  | 0x85 => some (.ZeroPage, 2)
  | 0x95 => some (.ZeroPage_X, 2)
  | 0x8D => some (.Absolute, 3)
  | 0x9D => some (.Absolute_X, 3)
  | 0x99 => some (.Absolute_Y, 3)
  | 0x81 => some (.Indirect_X, 2)
  | 0x91 => some (.Indirect_Y, 2)
  | 0xAA => some (.NoneAddressing, 1)
  | 0xE8 => some (.NoneAddressing, 1)
  | _ => none

/-- The opcodes of the `CPU::run` match arm dispatching to `lda`. -/
def ldaCodes : List Nat := [0xA9, 0xA5, 0xB5, 0xAD, 0xBD, 0xB9, 0xA1, 0xB1]

/-- The opcodes of the `CPU::run` match arm dispatching to `sta`. -/
def staCodes : List Nat := [0x85, 0x95, 0x8D, 0x9D, 0x99, 0x81, 0x91]

/-- How a fetch-decode-execute step can abort.  `unrecognizedOpcode` is the
`expect` on the table lookup; its panic message
(`"OpCode {:x} is not recognized"`) is built from the opcode value alone,
so the fault carries exactly that datum.  `abort` covers every other panic
(array indexing out of bounds, `todo!()`, the unsupported-mode panic). -/
inductive Fault
  | unrecognizedOpcode (code : Nat)
  | abort
deriving DecidableEq, Repr

/-- Outcome of one non-faulting loop iteration of `CPU::run`: either the
`0x00` arm returned (halt) or the loop continues with the new state. -/
inductive StepResult
  | halt (s : CPU)
  | next (s : CPU)

/-- The inner dispatch `match code` of `CPU::run`, without the `0x00` arm
(handled by `step`): the `_ => todo!()` arm is `none`, as is any panic
inside a handler. -/
def dispatch (s : CPU) (code : Nat) (mode : AddressingMode) : Option CPU :=
  if code ∈ ldaCodes then s.lda mode
  else if code ∈ staCodes then s.sta mode
  else if code = 0xAA then some s.tax
  else if code = 0xE8 then some s.inx
  else none

/-- One iteration of the `loop` in `CPU::run`: fetch the opcode, advance
the program counter by 1, record it (`program_counter_state`), look the
opcode up (the `expect` panic is `Fault.unrecognizedOpcode`), dispatch, and
if the handler left the counter untouched advance it by `len - 1`. -/
def step (s : CPU) : Except Fault StepResult :=
  match s.mem_read s.program_counter with
  | none => .error .abort
  | some code =>
    let s1 : CPU := { s with program_counter := s.program_counter + 1 }
    let pcState := s1.program_counter
    match opcodeEntry code with
    | none => .error (.unrecognizedOpcode code)
    | some (mode, len) =>
      if code = 0x00 then .ok (.halt s1)
      else
        match dispatch s1 code mode with
        | none => .error .abort
        | some s2 =>
          .ok (.next (if pcState = s2.program_counter then
                        { s2 with program_counter := s2.program_counter + (len - 1) }
                      else s2))

/-- Rust `CPU::run` with explicit fuel (the Rust loop has none): `none` means
the fuel ran out or a step faulted; `some` is the state at the `return` of
the `0x00` arm. -/
def run (fuel : Nat) (s : CPU) : Option CPU :=
  match fuel with
  | 0 => none
  | fuel + 1 =>
    match step s with
    | .error _ => none
    | .ok (.halt s1) => some s1
    | .ok (.next s1) => run fuel s1

/-- The slice assignment of `CPU::load`: bytes `base ..< base + prog.length`
come from the program, all other cells keep their old contents. -/
def copyAt (mem : Nat → Nat) (base : Nat) (prog : List Nat) : Nat → Nat :=
  fun i => if base ≤ i ∧ i < base + prog.length then prog.getD (i - base) 0 else mem i

/-- Rust `CPU::load`: copy the program into memory starting at 0x8000 (the Rust
slice assignment panics when `0x8000 + program.len()` exceeds the array
length 0xFFFF, modelled as `none`), then write the reset vector 0x8000 at
0xFFFC. -/
def CPU.load (s : CPU) (program : List Nat) : Option CPU :=
  if 0x8000 + program.length ≤ MEM_SIZE then
    CPU.mem_write_u16 { s with memory := copyAt s.memory 0x8000 program } 0xFFFC 0x8000
  else
    none

/-- Rust `CPU::reset`: zero the three registers and the status byte, and load
the program counter from the word at 0xFFFC. -/
def CPU.reset (s : CPU) : Option CPU := do
  let pc ← s.mem_read_u16 0xFFFC
  return { s with
           register_a := 0
           register_x := 0
           register_y := 0
           status := 0
           program_counter := pc }

/-- Rust `CPU::load_and_run`: load, reset, run (with fuel for the loop). -/
def CPU.load_and_run (fuel : Nat) (s : CPU) (program : List Nat) : Option CPU := do
  let s1 ← s.load program
  let s2 ← s1.reset
  run fuel s2

/-- The processor state of the older single-file implementation
src/lib.rs: only an accumulator, a status byte, and an 8-bit program
counter. -/
structure OldCPU where
  register_a : Nat
  status : Nat
  program_counter : Nat
deriving DecidableEq, Repr

/-- Rust `CPU::new()` of src/lib.rs. -/
def OldCPU.new : OldCPU := { register_a := 0, status := 0, program_counter := 0 }

/-- The `loop` of `CPU::interpret` in src/lib.rs, with fuel.  Vec indexing
out of bounds panics (`none`); the `0xA9` arm stores the parameter in the
accumulator and then tests `self.status == 0` — not the accumulator — for
the zero flag, exactly as the source does; `0x00` returns; any other
opcode hits `todo!()`.  (The source's program counter is a `u8`; its
overflow is unreachable for the programs considered here, so the increment
is modelled exactly.) -/
def interpretLoop (program : List Nat) : Nat → OldCPU → Option OldCPU
  | 0, _ => none
  | fuel + 1, s =>
    match program.get? s.program_counter with
    | none => none
    | some ops_code =>
      let s1 : OldCPU := { s with program_counter := s.program_counter + 1 }
      if ops_code = 0xA9 then
        match program.get? s1.program_counter with
        | none => none
        | some param =>
          let s2 : OldCPU :=
            { s1 with
              register_a := param
              program_counter := s1.program_counter + 1 }
          let st1 := if s2.status = 0 then s2.status ||| 0b10
                     else s2.status &&& 0b11111101
          let st2 := if s2.register_a &&& 0b10000000 ≠ 0 then st1 ||| 0b10000000
                     else st1 &&& 0b01111111
          interpretLoop program fuel { s2 with status := st2 }
      else if ops_code = 0x00 then some s1
      else none

/-- Rust `CPU::interpret` of src/lib.rs: reset the program counter to 0 and
loop. -/
def OldCPU.interpret (fuel : Nat) (s : OldCPU) (program : List Nat) : Option OldCPU :=
  interpretLoop program fuel { s with program_counter := 0 }

/-- A state about to execute an Indirect,X operand whose zero-page pointer
is 0xFF: the operand byte 0xF0 plus index X 0x0F gives pointer 0xFF; cell
0xFF holds 0x34, cell 0x100 holds 0x12, cell 0x00 holds 0xAB. -/
def indirectXState : CPU :=
  { register_a := 0, register_x := 0x0F, register_y := 0, status := 0,
    program_counter := 0x8000,
    memory := fun i =>
      if i = 0x8000 then 0xF0
      else if i = 0xFF then 0x34
      else if i = 0x100 then 0x12
      else if i = 0x00 then 0xAB
      else 0 }

/-- A state whose program counter points at the unrecognized opcode 0x02
stored at 0x8000. -/
def unknownOpState1 : CPU :=
  { CPU.new with
    program_counter := 0x8000
    memory := fun i => if i = 0x8000 then 0x02 else 0 }

/-- A state whose program counter points at the unrecognized opcode 0x02
stored at 0x9000. -/
def unknownOpState2 : CPU :=
  { CPU.new with
    program_counter := 0x9000
    memory := fun i => if i = 0x9000 then 0x02 else 0 }

/-- A state about to execute `LDA #$07` at 0x8000. -/
def ldaImmediateState : CPU :=
  { CPU.new with
    program_counter := 0x8000
    memory := fun i => if i = 0x8000 then 0xA9 else if i = 0x8001 then 0x07 else 0 }

/-- The state after one step of `ldaImmediateState`: accumulator 0x07,
flags unchanged (0x07 is neither zero nor negative), program counter
advanced past the two-byte instruction. -/
def ldaImmediateNext : CPU :=
  { ldaImmediateState with
    register_a := 0x07
    program_counter := 0x8002 }

/-- A state whose accumulator holds 0x42, about to resolve a ZeroPage
operand 0x10 stored at the program counter 0x8000. -/
def staState : CPU :=
  { CPU.new with
    register_a := 0x42
    program_counter := 0x8000
    memory := fun i => if i = 0x8000 then 0x10 else 0 }

/-- The state `staState` after `sta` with the ZeroPage mode: cell 0x10 now holds the
accumulator value 0x42, everything else is unchanged. -/
def staNext : CPU :=
  { staState with memory := fun i => if i = 0x10 then 0x42 else staState.memory i }

theorem lowByte_or_highByte (x : Nat) (hx : x < 65536) :
    ((x >>> 8) % 256) <<< 8 ||| (x &&& 0xFF) = x := by
  have h1 : x >>> 8 = x / 256 := by
    simp [Nat.shiftRight_eq_div_pow]
  have h2 : x &&& 0xFF = x % 256 := by
    have := Nat.and_pow_two_sub_one_eq_mod x 8
    simpa using this
  have h3 : x / 256 < 256 := by omega
  have h4 : (x / 256) % 256 = x / 256 := Nat.mod_eq_of_lt h3
  have hmod : x % 256 < 2 ^ 8 := by
    have h6 : x % 256 < 256 := Nat.mod_lt x (by norm_num)
    norm_num
    omega
  rw [h1, h4, h2, Nat.shiftLeft_eq, Nat.mul_comm (x / 256) (2 ^ 8),
    ← Nat.mul_add_lt_is_or hmod (x / 256)]
  omega

theorem and128_eq_zero_iff (n : Nat) : n &&& 128 = 0 ↔ n.testBit 7 = false := by
  have h := Nat.and_two_pow n 7
  norm_num at h
  rw [h]
  cases hb : n.testBit 7 <;> simp

/-- C2: the claim fails on the code: the memory array is declared with
65535 cells (`[u8; 0xFFFF]`), not 65536, so the primitive accessors fault
(index out of bounds) at the topmost 16-bit address 0xFFFF. -/
theorem mem_accessors_fault_at_0xFFFF :
    MEM_SIZE = 65535 ∧
    (∀ s : CPU, s.mem_read 0xFFFF = none) ∧
    (∀ (s : CPU) (d : Nat), s.mem_write 0xFFFF d = none) := by
  refine ⟨rfl, fun s => ?_, fun s d => ?_⟩ <;>
    simp [CPU.mem_read, CPU.mem_write, MEM_SIZE]

/-- C4: the claim fails on the code: at zero-page pointer 0xFF the
Indirect,X resolver reads the high byte from address 0x0100, not 0x0000
(the source casts the pointer to u16 before `wrapping_add(1)`, so the
increment wraps modulo 65536).  In `indirectXState` the operand byte 0xF0
plus index X 0x0F gives pointer 0xFF; cell 0xFF holds 0x34, cell 0x0100
holds 0x12 and cell 0x0000 holds 0xAB, and the resolver returns 0x1234 —
the claim would require 0xAB34. -/
theorem indirect_x_high_byte_read_from_0x100 :
    indirectXState.get_operand_address AddressingMode.Indirect_X = some 0x1234 ∧
    indirectXState.memory 0x0000 = 0xAB ∧
    indirectXState.memory 0x0100 = 0x12 ∧
    (0x1234 : Nat) ≠ 0xAB34 := by
  refine ⟨by decide, by decide, by decide, by decide⟩

/-- C5: the flag-update routine sets status bit 1 iff the result is zero,
sets bit 7 iff bit 7 of the result is set, and leaves bits 0, 2, 3, 4, 5
and 6 of the prior status byte unchanged. -/
theorem update_zero_and_negative_flags_spec (result : Nat) (hbyte : result < 256)
    (status : Nat) (hstatus : status < 256) :
    ((update_zero_and_negative_flags status result).testBit 1 ↔ result = 0) ∧
    ((update_zero_and_negative_flags status result).testBit 7 = result.testBit 7) ∧
    ((update_zero_and_negative_flags status result).testBit 0 = status.testBit 0) ∧
    ((update_zero_and_negative_flags status result).testBit 2 = status.testBit 2) ∧
    ((update_zero_and_negative_flags status result).testBit 3 = status.testBit 3) ∧
    ((update_zero_and_negative_flags status result).testBit 4 = status.testBit 4) ∧
    ((update_zero_and_negative_flags status result).testBit 5 = status.testBit 5) ∧
    ((update_zero_and_negative_flags status result).testBit 6 = status.testBit 6) := by
  unfold update_zero_and_negative_flags
  by_cases hz : result = 0
  · have hneg : result &&& 128 = 0 := by subst hz; decide
    have h7 : result.testBit 7 = false := (and128_eq_zero_iff result).mp hneg
    simp [hz, hneg, h7, Nat.testBit_or, Nat.testBit_and,
      (by decide : Nat.testBit 2 0 = false), (by decide : Nat.testBit 2 1 = true),
      (by decide : Nat.testBit 2 2 = false), (by decide : Nat.testBit 2 3 = false),
      (by decide : Nat.testBit 2 4 = false), (by decide : Nat.testBit 2 5 = false),
      (by decide : Nat.testBit 2 6 = false), (by decide : Nat.testBit 2 7 = false),
      (by decide : Nat.testBit 127 0 = true), (by decide : Nat.testBit 127 1 = true),
      (by decide : Nat.testBit 127 2 = true), (by decide : Nat.testBit 127 3 = true),
      (by decide : Nat.testBit 127 4 = true), (by decide : Nat.testBit 127 5 = true),
      (by decide : Nat.testBit 127 6 = true), (by decide : Nat.testBit 127 7 = false)]
  · by_cases hneg : result &&& 128 = 0
    · have h7 : result.testBit 7 = false := (and128_eq_zero_iff result).mp hneg
      simp [hz, hneg, h7, Nat.testBit_or, Nat.testBit_and,
        (by decide : Nat.testBit 253 0 = true), (by decide : Nat.testBit 253 1 = false),
        (by decide : Nat.testBit 253 2 = true), (by decide : Nat.testBit 253 3 = true),
        (by decide : Nat.testBit 253 4 = true), (by decide : Nat.testBit 253 5 = true),
        (by decide : Nat.testBit 253 6 = true), (by decide : Nat.testBit 253 7 = true),
        (by decide : Nat.testBit 127 0 = true), (by decide : Nat.testBit 127 1 = true),
        (by decide : Nat.testBit 127 2 = true), (by decide : Nat.testBit 127 3 = true),
        (by decide : Nat.testBit 127 4 = true), (by decide : Nat.testBit 127 5 = true),
        (by decide : Nat.testBit 127 6 = true), (by decide : Nat.testBit 127 7 = false)]
    · have h7 : result.testBit 7 = true := by
        cases hb : result.testBit 7
        · exact absurd ((and128_eq_zero_iff result).mpr hb) hneg
        · rfl
      simp [hz, hneg, h7, Nat.testBit_or, Nat.testBit_and,
        (by decide : Nat.testBit 253 0 = true), (by decide : Nat.testBit 253 1 = false),
        (by decide : Nat.testBit 253 2 = true), (by decide : Nat.testBit 253 3 = true),
        (by decide : Nat.testBit 253 4 = true), (by decide : Nat.testBit 253 5 = true),
        (by decide : Nat.testBit 253 6 = true), (by decide : Nat.testBit 253 7 = true),
        (by decide : Nat.testBit 128 0 = false), (by decide : Nat.testBit 128 1 = false),
        (by decide : Nat.testBit 128 2 = false), (by decide : Nat.testBit 128 3 = false),
        (by decide : Nat.testBit 128 4 = false), (by decide : Nat.testBit 128 5 = false),
        (by decide : Nat.testBit 128 6 = false), (by decide : Nat.testBit 128 7 = true)]

/-- Concrete instance of C5 at result 0x80 and status 0x7F: bit 1 clear,
bit 7 set, bits 0 and 2-6 preserved from 0x7F. -/
theorem update_zero_and_negative_flags_spec_witness :
    ((update_zero_and_negative_flags 0x7F 0x80).testBit 1 ↔ (0x80 : Nat) = 0) ∧
    ((update_zero_and_negative_flags 0x7F 0x80).testBit 7 = Nat.testBit 0x80 7) ∧
    ((update_zero_and_negative_flags 0x7F 0x80).testBit 0 = Nat.testBit 0x7F 0) ∧
    ((update_zero_and_negative_flags 0x7F 0x80).testBit 2 = Nat.testBit 0x7F 2) ∧
    ((update_zero_and_negative_flags 0x7F 0x80).testBit 3 = Nat.testBit 0x7F 3) ∧
    ((update_zero_and_negative_flags 0x7F 0x80).testBit 4 = Nat.testBit 0x7F 4) ∧
    ((update_zero_and_negative_flags 0x7F 0x80).testBit 5 = Nat.testBit 0x7F 5) ∧
    ((update_zero_and_negative_flags 0x7F 0x80).testBit 6 = Nat.testBit 0x7F 6) :=
  update_zero_and_negative_flags_spec 0x80 (by decide) 0x7F (by decide)

/-- C3: writing a 16-bit word and reading it back at the same valid address
returns the word: `writeWord` stores the low byte at `addr` and the high
byte at `addr + 1` and `readWord` recombines them little-endian. -/
theorem mem_write_u16_read_u16_round_trip (s : CPU) (addr x : Nat)
    (haddr : validWordAddr addr) (hx : x < 65536) :
    (s.mem_write_u16 addr x).bind (fun s1 => s1.mem_read_u16 addr) = some x := by
  have h0 : addr < MEM_SIZE := by
    unfold validWordAddr at haddr; omega
  have h1 : addr + 1 < MEM_SIZE := haddr
  have hne : addr ≠ addr + 1 := by omega
  simp [CPU.mem_write_u16, CPU.mem_read_u16, CPU.mem_read, CPU.mem_write,
    h0, h1, hne, lowByte_or_highByte x hx]

/-- Concrete instance of the C3 round trip at address 0x0010 and word
0xBEEF. -/
theorem mem_write_u16_read_u16_round_trip_witness :
    (CPU.new.mem_write_u16 0x10 0xBEEF).bind
      (fun s1 => s1.mem_read_u16 0x10) = some 0xBEEF :=
  mem_write_u16_read_u16_round_trip CPU.new 0x10 0xBEEF (by decide) (by decide)

/-- C1: for every byte value v, a fresh CPU running
`[0xA9, v, 0x00]` halts with the accumulator equal to v, status bit 1 set
iff v = 0, and status bit 7 set iff bit 7 of v is set. -/
theorem load_and_run_lda_immediate_spec (v : Nat) (hv : v < 256) :
    (CPU.new.load_and_run 3 [0xA9, v, 0x00]).map CPU.register_a = some v ∧
    (CPU.new.load_and_run 3 [0xA9, v, 0x00]).map (fun f => f.status.testBit 1)
      = some (decide (v = 0)) ∧
    (CPU.new.load_and_run 3 [0xA9, v, 0x00]).map (fun f => f.status.testBit 7)
      = some (v.testBit 7) := by
  revert v
  set_option maxRecDepth 10000 in decide

/-- Concrete instance of C1 at v = 0x80: accumulator 0x80, zero flag
clear, negative flag set. -/
theorem load_and_run_lda_immediate_spec_witness :
    (CPU.new.load_and_run 3 [0xA9, 0x80, 0x00]).map CPU.register_a = some 0x80 ∧
    (CPU.new.load_and_run 3 [0xA9, 0x80, 0x00]).map (fun f => f.status.testBit 1)
      = some (decide ((0x80 : Nat) = 0)) ∧
    (CPU.new.load_and_run 3 [0xA9, 0x80, 0x00]).map (fun f => f.status.testBit 7)
      = some (Nat.testBit 0x80 7) :=
  load_and_run_lda_immediate_spec 0x80 (by decide)

/-- C7 counterexample: the diagnostic for an unrecognized opcode does not
report the fetch address: the same unknown opcode 0x02 fetched at two
different addresses (0x8000 and 0x9000) aborts with identical
diagnostics, which therefore cannot identify the address. -/
theorem unrecognized_opcode_diagnostic_lacks_address :
    step unknownOpState1 = .error (.unrecognizedOpcode 0x02) ∧
    step unknownOpState2 = .error (.unrecognizedOpcode 0x02) ∧
    unknownOpState1.program_counter ≠ unknownOpState2.program_counter :=
  ⟨rfl, rfl, by decide⟩

/-- C7 amended: when the fetched opcode byte has no entry in the opcode
table, the step stops fatally with a diagnostic reporting the opcode value
(the source's panic message is built from the opcode alone), and the run
loop cannot continue past it: no recoverable-error path exists. -/
theorem unrecognized_opcode_is_fatal (s : CPU) (code : Nat)
    (hfetch : s.mem_read s.program_counter = some code)
    (htab : opcodeEntry code = none) :
    step s = .error (.unrecognizedOpcode code) ∧
    ∀ fuel, run (fuel + 1) s = none := by
  have hstep : step s = .error (.unrecognizedOpcode code) := by
    simp [step, hfetch, htab]
  refine ⟨hstep, fun fuel => ?_⟩
  unfold run
  rw [hstep]

/-- Concrete instance of C7 (amended): opcode 0x02 at 0x9000 aborts
fatally and the loop yields no final state. -/
theorem unrecognized_opcode_is_fatal_witness :
    step unknownOpState2 = .error (.unrecognizedOpcode 0x02) ∧
    run 1 unknownOpState2 = none := by
  have h := unrecognized_opcode_is_fatal unknownOpState2 0x02 rfl rfl
  exact ⟨h.1, h.2 0⟩

/-- C8: reset zeroes the accumulator, both index registers and the status
byte, sets the program counter to the little-endian word stored at 0xFFFC,
and is idempotent: a second reset with no intervening load produces the
same state. -/
theorem reset_idempotent (s : CPU) :
    s.reset = some { s with
                     register_a := 0
                     register_x := 0
                     register_y := 0
                     status := 0
                     program_counter := (s.memory 0xFFFD) <<< 8 ||| s.memory 0xFFFC } ∧
    (s.reset).bind CPU.reset = s.reset := by
  have h : s.reset = some { s with
                            register_a := 0
                            register_x := 0
                            register_y := 0
                            status := 0
                            program_counter := (s.memory 0xFFFD) <<< 8 ||| s.memory 0xFFFC } := by
    simp [CPU.reset, CPU.mem_read_u16, CPU.mem_read, MEM_SIZE]
  refine ⟨h, ?_⟩
  rw [h]
  simp [CPU.reset, CPU.mem_read_u16, CPU.mem_read, MEM_SIZE]

/-- C10: the claim fails at v = 0x05: the older single-file interpret sets
the zero flag (its zero-flag conditional tests the status byte, which is 0
on a fresh CPU, instead of the accumulator), while load_and_run on the
same program clears it; the accumulators agree. -/
theorem interpret_vs_load_and_run_zero_flag_diverges :
    (OldCPU.interpret 2 OldCPU.new [0xA9, 0x05, 0x00]).map
        (fun s => (s.register_a, s.status.testBit 1)) = some (0x05, true) ∧
    (CPU.new.load_and_run 3 [0xA9, 0x05, 0x00]).map
        (fun f => (f.register_a, f.status.testBit 1)) = some (0x05, false) :=
  ⟨rfl, rfl⟩

theorem lda_preserves_pc (s : CPU) (mode : AddressingMode) (t : CPU)
    (h : s.lda mode = some t) : t.program_counter = s.program_counter := by
  cases ha : s.get_operand_address mode with
  | none => simp [CPU.lda, ha] at h
  | some addr =>
    cases hv : s.mem_read addr with
    | none => simp [CPU.lda, ha, hv] at h
    | some v =>
      simp [CPU.lda, ha, hv] at h
      subst h
      rfl

theorem sta_characterization (s : CPU) (mode : AddressingMode) (t : CPU)
    (h : s.sta mode = some t) :
    ∃ addr, s.get_operand_address mode = some addr ∧
      t.memory addr = s.register_a ∧
      (∀ i, i ≠ addr → t.memory i = s.memory i) ∧
      t.register_a = s.register_a ∧ t.register_x = s.register_x ∧
      t.register_y = s.register_y ∧ t.status = s.status ∧
      t.program_counter = s.program_counter := by
  cases ha : s.get_operand_address mode with
  | none => simp [CPU.sta, ha] at h
  | some addr =>
    by_cases hb : addr < MEM_SIZE
    · simp [CPU.sta, ha, CPU.mem_write, hb] at h
      subst h
      refine ⟨addr, rfl, by simp, fun i hi => by simp [hi], rfl, rfl, rfl, rfl, rfl⟩
    · simp [CPU.sta, ha, CPU.mem_write, hb] at h

theorem dispatch_preserves_pc (s : CPU) (code : Nat) (mode : AddressingMode)
    (t : CPU) (h : dispatch s code mode = some t) :
    t.program_counter = s.program_counter := by
  unfold dispatch at h
  split at h
  · exact lda_preserves_pc s mode t h
  · split at h
    · obtain ⟨addr, -, -, -, -, -, -, -, hpc⟩ := sta_characterization s mode t h
      exact hpc
    · split at h
      · simp at h
        subst h
        rfl
      · split at h
        · simp at h
          subst h
          rfl
        · simp at h

theorem opcodeEntry_len_ge_one (code : Nat) (mode : AddressingMode) (len : Nat)
    (h : opcodeEntry code = some (mode, len)) : 1 ≤ len := by
  unfold opcodeEntry at h
  split at h <;> simp_all <;> omega

/-- C6: when the fetch succeeds and the opcode is in the table, every step
whose dispatch returns normally (the handlers lda, sta, tax and inx never
touch the program counter) continues with the program counter advanced by
exactly the instruction's total byte length: 1 from the opcode fetch plus
`len - 1` from the post-dispatch fix-up. -/
theorem step_advances_pc_by_instruction_length (s t : CPU) (code : Nat)
    (mode : AddressingMode) (len : Nat)
    (hfetch : s.mem_read s.program_counter = some code)
    (htab : opcodeEntry code = some (mode, len))
    (hstep : step s = .ok (.next t)) :
    t.program_counter = s.program_counter + len := by
  have hlen := opcodeEntry_len_ge_one code mode len htab
  simp only [step, hfetch, htab] at hstep
  by_cases hc : code = 0
  · simp [hc] at hstep
  · rw [if_neg hc] at hstep
    cases hd : dispatch { s with program_counter := s.program_counter + 1 } code mode with
    | none => rw [hd] at hstep; cases hstep
    | some s2 =>
      rw [hd] at hstep
      have hpc2 := dispatch_preserves_pc _ code mode s2 hd
      simp only [Except.ok.injEq, StepResult.next.injEq] at hstep
      rw [hpc2] at hstep
      simp only [if_pos rfl] at hstep
      subst hstep
      show s.program_counter + 1 + (len - 1) = s.program_counter + len
      omega

/-- Concrete instance of C6: stepping `LDA #$07` (a two-byte instruction)
advances the program counter from 0x8000 by exactly 2. -/
theorem step_advances_pc_by_instruction_length_witness :
    ldaImmediateNext.program_counter = ldaImmediateState.program_counter + 2 :=
  step_advances_pc_by_instruction_length ldaImmediateState ldaImmediateNext 0xA9
    AddressingMode.Immediate 2 rfl rfl rfl

/-- C9 counterexample: the opcode table permits Indirect,Y for
store-accumulator (opcode 0x91), but on that mode the handler faults (the
resolver's match falls into `todo!()`) instead of writing the accumulator
to an effective address. -/
theorem sta_indirect_y_faults :
    opcodeEntry 0x91 = some (AddressingMode.Indirect_Y, 2) ∧
    CPU.new.sta AddressingMode.Indirect_Y = none :=
  ⟨rfl, rfl⟩

/-- C9 amended: for every addressing mode the opcode table permits for
store-accumulator except Indirect,Y (whose resolver arm is unimplemented
and faults), a successful sta writes the accumulator's current value to
the resolved effective address and changes nothing else: the registers,
the status byte and every other memory cell are unchanged. -/
theorem sta_writes_accumulator_and_nothing_else (s t : CPU) (mode : AddressingMode)
    (hpermitted : mode ∈ [AddressingMode.ZeroPage, AddressingMode.ZeroPage_X,
      AddressingMode.Absolute, AddressingMode.Absolute_X,
      AddressingMode.Absolute_Y, AddressingMode.Indirect_X])
    (h : s.sta mode = some t) :
    ∃ addr, s.get_operand_address mode = some addr ∧
      t.memory addr = s.register_a ∧
      (∀ i, i ≠ addr → t.memory i = s.memory i) ∧
      t.register_a = s.register_a ∧ t.register_x = s.register_x ∧
      t.register_y = s.register_y ∧ t.status = s.status ∧
      t.program_counter = s.program_counter :=
  sta_characterization s mode t h

/-- Concrete instance of C9 (amended): storing accumulator 0x42 through
ZeroPage operand 0x10 writes cell 0x10 and preserves everything else. -/
theorem sta_writes_accumulator_and_nothing_else_witness :
    ∃ addr, staState.get_operand_address AddressingMode.ZeroPage = some addr ∧
      staNext.memory addr = staState.register_a ∧
      (∀ i, i ≠ addr → staNext.memory i = staState.memory i) ∧
      staNext.register_a = staState.register_a ∧
      staNext.register_x = staState.register_x ∧
      staNext.register_y = staState.register_y ∧
      staNext.status = staState.status ∧
      staNext.program_counter = staState.program_counter :=
  sta_writes_accumulator_and_nothing_else staState staNext AddressingMode.ZeroPage
    (by decide) rfl
